import Mathlib

/-!
Verification of the filter-and-classification core of the Olympics
dashboard (src/utils.py and the per-page filter application blocks).

Tables are modelled as an ordered list of rows over a list of column
names; a cell is `Option String` with `none` standing for a missing
value (pandas NaN).  Each filter dimension of the code follows the
pattern "if the selection is non-empty and an alias column is present,
keep the rows whose value in that column is a member of the selection";
`filterDim` embeds that pattern once and the composed pipelines reuse it.

The external `pycountry_convert` resolution chain is not part of the
repository; `get_continent_from_country_code` therefore takes it as a
function argument `iso : String → Option String`, with `none` standing
for any exception raised by the chain (the code absorbs every exception
into the sentinel "Unknown").
-/

namespace Olympics

/-- A cell of a table: `none` models a missing value (pandas NaN). -/
abbrev Cell := Option String

/-- A row: an association list from column name to cell value; a lookup
reads the first entry with the given key. -/
abbrev Row := List (String × Cell)

/-- A dataframe: its column names and its rows, in order. -/
structure Table where
  cols : List String
  rows : List Row
deriving DecidableEq

theorem Table.eq_of {a b : Table} (h1 : a.cols = b.cols) (h2 : a.rows = b.rows) : a = b := by
  cases a
  cases b
  cases h1
  cases h2
  rfl

/-- `rowVal r c` is the value of column `c` in row `r` (first matching
entry), `none` when the row has no such entry. -/
def rowVal : Row → String → Cell
  | [], _ => none
  | p :: r, c => if p.1 = c then p.2 else rowVal r c

/-- The row predicate of `Series.isin(sel)` as used by every filter:
a present value matches iff it is a member of the selected-value set;
a missing value (NaN) matches nothing. -/
def matchesSel (v : Cell) (sel : List String) : Bool :=
  match v with
  | some s => sel.contains s
  | none => false

/-- Resolve which actual column carries a concept on a table: the first
alias of the ordered list that is one of the table's columns. -/
def resolveCol (cols : List String) (aliases : List String) : Option String :=
  aliases.find? (fun a => cols.contains a)

/-- One filter dimension, exactly the guarded pattern of the code:
`if selection and column present: df = df[df[col].isin(selection)]`.
An empty selection or an unresolvable column leaves the table unchanged. -/
def filterDim (t : Table) (sel : List String) (aliases : List String) : Table :=
  if sel.isEmpty then t
  else
    match resolveCol t.cols aliases with
    | none => t
    | some c => { cols := t.cols, rows := t.rows.filter (fun r => matchesSel (rowVal r c) sel) }

/-- `apply_filters` of src/utils.py: countries on `country_code`, sports
on `sport`, medals on `medal_type` preferred over `medal`. -/
def apply_filters (df : Table) (selected_countries selected_sports selected_medals : List String) : Table :=
  let f1 := filterDim df selected_countries ["country_code"]
  let f2 := filterDim f1 selected_sports ["sport"]
  filterDim f2 selected_medals ["medal_type", "medal"]

/-- The five-field Filter Criteria: a set of selected values per dimension. -/
structure Criteria where
  countries : List String
  sports : List String
  genders : List String
  medals : List String
  continents : List String
deriving DecidableEq

/-- The ordered alias lists telling which column carries each concept on
a table (e.g. sports resolve through `discipline` then `sport`). -/
structure ColumnAliases where
  countries : List String
  sports : List String
  genders : List String
  medals : List String
  continents : List String

/-- The five-dimension filter pipeline as the pages compose it per table
(countries, sports, gender, continents, medal type in order, each an
instance of the guarded `filterDim` pattern). -/
def applyFilters (t : Table) (crit : Criteria) (al : ColumnAliases) : Table :=
  let t1 := filterDim t crit.countries al.countries
  let t2 := filterDim t1 crit.sports al.sports
  let t3 := filterDim t2 crit.genders al.genders
  let t4 := filterDim t3 crit.continents al.continents
  filterDim t4 crit.medals al.medals

/-- The special-case table of src/utils.py for non-ISO Olympic codes. -/
def special_codes : List (String × String) :=
  [("ROC", "Europe"), ("AIN", "Europe"), ("EOR", "Unknown"), ("IOP", "Unknown")]

/-- `get_continent_from_country_code` of src/utils.py.  `iso` is the
external pycountry_convert chain (alpha3 → alpha2 → continent code →
continent name); `iso s = none` models any exception it raises, which
the code's `except` clause absorbs into "Unknown".  A `none` input
models a NaN cell (`pd.isna`). -/
def get_continent_from_country_code (iso : String → Option String) (country_code : Cell) : String :=
  match country_code with
  | none => "Unknown"
  | some s =>
    if s = "" then "Unknown"
    else
      match special_codes.find? (fun p => p.1 = s) with
      | some p => p.2
      | none =>
        match iso s with
        | some continent_name => continent_name
        | none => "Unknown"

/-- `setCell r c v` models assigning value `v` to column `c` of row `r`:
existing entries for `c` are overwritten in place, otherwise the entry is
appended at the end. -/
def setCell (r : Row) (c : String) (v : Cell) : Row :=
  if r.any (fun p => p.1 = c) then
    r.map (fun p => if p.1 = c then (c, v) else p)
  else r ++ [(c, v)]

/-- `df[c] = f(row)` for every row: a column assignment on a dataframe.
The column list gains `c` at the end when it is new. -/
def setColumnBy (t : Table) (c : String) (f : Row → Cell) : Table :=
  { cols := if t.cols.contains c then t.cols else t.cols ++ [c],
    rows := t.rows.map (fun r => setCell r c (f r)) }

/-- `add_continent_column` of src/utils.py.  The pandas column assignment
`df['continent'] = ...` mutates `df` in place and the function returns
`df` itself, so this value is both the returned table and the post-call
value of the argument.  When the country column is missing every row
receives "Unknown". -/
def add_continent_column (iso : String → Option String) (df : Table) (country_col : String) : Table :=
  if df.cols.contains country_col then
    setColumnBy df "continent" (fun r => some (get_continent_from_country_code iso (rowVal r country_col)))
  else
    setColumnBy df "continent" (fun _ => some "Unknown")

/-- `gender_map = {'M': 'Male', 'W': 'Female'}` of the pages; `none`
for a key outside the dict. -/
def gender_map (s : String) : Option String :=
  if s = "M" then some "Male" else if s = "W" then some "Female" else none

/-- `Series.map(gender_map)` on one cell: unmapped values, including a
missing value, become NaN. -/
def mapGenderCell (v : Cell) : Cell := v.bind gender_map

/-- `medals_df['gender'] = medals_df['gender'].map(gender_map)` guarded
by the column check, as the Overview page normalizes per-medal-event
gender codes before filtering. -/
def map_gender_column (t : Table) : Table :=
  if t.cols.contains "gender" then
    setColumnBy t "gender" (fun r => mapGenderCell (rowVal r "gender"))
  else t

/-- Whether row `r` passes one criterion dimension on a table with
columns `cols`: vacuously when the selection is empty or no alias column
resolves, otherwise by membership of the resolved column's value. -/
def dimPass (cols : List String) (sel aliases : List String) (r : Row) : Prop :=
  sel ≠ [] → ∀ c, resolveCol cols aliases = some c → matchesSel (rowVal r c) sel = true

/-- Boolean form of one dimension's row predicate. -/
def dimBool (cols : List String) (sel aliases : List String) (r : Row) : Bool :=
  if sel.isEmpty then true
  else
    match resolveCol cols aliases with
    | none => true
    | some c => matchesSel (rowVal r c) sel

theorem filterDim_cols (t : Table) (sel aliases : List String) :
    (filterDim t sel aliases).cols = t.cols := by
  unfold filterDim
  split
  · rfl
  · split <;> rfl

theorem filterDim_rows (t : Table) (sel aliases : List String) :
    (filterDim t sel aliases).rows = t.rows.filter (fun r => dimBool t.cols sel aliases r) := by
  unfold filterDim dimBool
  split
  · simp
  · split
    · simp
    · rfl

theorem dimBool_eq_true_iff (cols : List String) (sel aliases : List String) (r : Row) :
    dimBool cols sel aliases r = true ↔ dimPass cols sel aliases r := by
  unfold dimBool dimPass
  split
  · rename_i hE
    simp [List.isEmpty_iff.mp hE]
  · rename_i hE
    have hne : sel ≠ [] := by
      intro h
      rw [h] at hE
      exact hE rfl
    split
    · rename_i hres
      simp only [hres]
      constructor
      · intro _ _ c hc
        cases hc
      · intro _
        trivial
    · rename_i c hres
      simp only [hres]
      constructor
      · intro h _ c2 hc2
        cases hc2
        exact h
      · intro h
        exact h hne c rfl

theorem filterDim_nil (t : Table) (aliases : List String) : filterDim t [] aliases = t := by
  simp [filterDim]

theorem filterDim_resolved (t : Table) (sel aliases : List String) (c : String)
    (hne : sel ≠ []) (h : resolveCol t.cols aliases = some c) :
    filterDim t sel aliases = ⟨t.cols, t.rows.filter (fun r => matchesSel (rowVal r c) sel)⟩ := by
  cases sel with
  | nil => exact absurd rfl hne
  | cons x xs => simp [filterDim, h]

theorem filterDim_unresolved (t : Table) (sel aliases : List String)
    (h : resolveCol t.cols aliases = none) : filterDim t sel aliases = t := by
  unfold filterDim
  rw [h]
  split <;> rfl

theorem filterDim_rows_sublist (t : Table) (sel aliases : List String) :
    (filterDim t sel aliases).rows.Sublist t.rows := by
  rw [filterDim_rows]
  exact List.filter_sublist _

theorem rowVal_map_overwrite (r : Row) (c : String) (v : Cell)
    (h : r.any (fun p => p.1 = c) = true) :
    rowVal (r.map (fun p => if p.1 = c then (c, v) else p)) c = v := by
  induction r with
  | nil => simp at h
  | cons p tl ih =>
    by_cases hp : p.1 = c
    · simp [rowVal, hp]
    · have h2 : tl.any (fun p => p.1 = c) = true := by simpa [hp] using h
      simpa [rowVal, hp] using ih h2

theorem rowVal_append_new (r : Row) (c : String) (v : Cell)
    (h : r.any (fun p => p.1 = c) = false) :
    rowVal (r ++ [(c, v)]) c = v := by
  induction r with
  | nil => simp [rowVal]
  | cons p tl ih =>
    have hp : ¬p.1 = c := by
      intro hc
      simp [hc] at h
    have h2 : tl.any (fun p => p.1 = c) = false := by simpa [hp] using h
    simpa [rowVal, hp] using ih h2

theorem rowVal_setCell_same (r : Row) (c : String) (v : Cell) :
    rowVal (setCell r c v) c = v := by
  unfold setCell
  split
  · exact rowVal_map_overwrite r c v (by assumption)
  · rename_i h
    exact rowVal_append_new r c v (Bool.eq_false_iff.mpr h)

theorem rowVal_map_ne (r : Row) (c : String) (v : Cell) (c2 : String) (h : c2 ≠ c) :
    rowVal (r.map (fun p => if p.1 = c then (c, v) else p)) c2 = rowVal r c2 := by
  induction r with
  | nil => rfl
  | cons p tl ih =>
    have hcc : ¬c = c2 := fun q => h q.symm
    by_cases hp : p.1 = c
    · have h1 : ¬p.1 = c2 := by
        rw [hp]
        exact hcc
      rw [List.map_cons, if_pos hp]
      simp only [rowVal]
      rw [if_neg hcc, if_neg h1]
      exact ih
    · rw [List.map_cons, if_neg hp]
      simp only [rowVal]
      by_cases hq : p.1 = c2
      · rw [if_pos hq, if_pos hq]
      · rw [if_neg hq, if_neg hq]
        exact ih

theorem rowVal_append_ne (r : Row) (c : String) (v : Cell) (c2 : String) (h : c2 ≠ c) :
    rowVal (r ++ [(c, v)]) c2 = rowVal r c2 := by
  induction r with
  | nil =>
    have hcc : ¬c = c2 := fun hcc => h hcc.symm
    simp [rowVal, hcc]
  | cons p tl ih =>
    simp only [List.cons_append, rowVal]
    by_cases hq : p.1 = c2
    · rw [if_pos hq, if_pos hq]
    · rw [if_neg hq, if_neg hq]
      exact ih

theorem rowVal_setCell_ne (r : Row) (c : String) (v : Cell) (c2 : String) (h : c2 ≠ c) :
    rowVal (setCell r c v) c2 = rowVal r c2 := by
  unfold setCell
  split
  · exact rowVal_map_ne r c v c2 h
  · exact rowVal_append_ne r c v c2 h

/-- C1: `applyFilters` retains exactly the rows satisfying every active
(non-empty) criterion of all five fields at once: a row is in the result
iff, for each field with a non-empty selection whose column resolves on
the table, the row's resolved-column value is a member of the selection. -/
theorem applyFilters_and_semantics (t : Table) (crit : Criteria) (al : ColumnAliases) (r : Row) :
    r ∈ (applyFilters t crit al).rows ↔
      r ∈ t.rows
        ∧ dimPass t.cols crit.countries al.countries r
        ∧ dimPass t.cols crit.sports al.sports r
        ∧ dimPass t.cols crit.genders al.genders r
        ∧ dimPass t.cols crit.continents al.continents r
        ∧ dimPass t.cols crit.medals al.medals r := by
  simp only [applyFilters, filterDim_rows, filterDim_cols, List.mem_filter, dimBool_eq_true_iff]
  tauto

/-- C2: with all five criteria fields empty, the five-dimension pipeline
and `apply_filters` of utils.py both return the input table unchanged
(rows, order, columns): an empty selection restricts nothing. -/
theorem applyFilters_all_empty (t : Table) (al : ColumnAliases) :
    applyFilters t ⟨[], [], [], [], []⟩ al = t ∧ apply_filters t [] [] [] = t := by
  constructor <;> simp [applyFilters, apply_filters, filterDim]

/-- C6: filter application is commutative in the order the criterion
dimensions are applied: either dimension first yields the same table. -/
theorem filterDim_comm (t : Table) (selA aliasesA selB aliasesB : List String) :
    filterDim (filterDim t selA aliasesA) selB aliasesB
      = filterDim (filterDim t selB aliasesB) selA aliasesA := by
  apply Table.eq_of
  · simp [filterDim_cols]
  · simp only [filterDim_rows, filterDim_cols, List.filter_filter]
    congr 1
    funext r
    exact Bool.and_comm _ _

/-- C10: filtering only removes whole rows: the output's columns are the
input's, and the output rows are a sublist of the input rows (every
output row is an input row, in the same relative order, unedited). -/
theorem applyFilters_rows_sublist (t : Table) (crit : Criteria) (al : ColumnAliases)
    (cs ss ms : List String) :
    (applyFilters t crit al).cols = t.cols
    ∧ (applyFilters t crit al).rows.Sublist t.rows
    ∧ (apply_filters t cs ss ms).cols = t.cols
    ∧ (apply_filters t cs ss ms).rows.Sublist t.rows := by
  refine ⟨?_, ?_, ?_, ?_⟩
  · simp [applyFilters, filterDim_cols]
  · exact ((((filterDim_rows_sublist _ _ _).trans (filterDim_rows_sublist _ _ _)).trans
      (filterDim_rows_sublist _ _ _)).trans (filterDim_rows_sublist _ _ _)).trans
      (filterDim_rows_sublist _ _ _)
  · simp [apply_filters, filterDim_cols]
  · exact ((filterDim_rows_sublist _ _ _).trans (filterDim_rows_sublist _ _ _)).trans
      (filterDim_rows_sublist _ _ _)

/-- C3: `get_continent_from_country_code` absorbs every failure into the
sentinel "Unknown": a missing value, the blank string, and any string
that is no special case and on which the ISO chain fails (raises) all
yield "Unknown"; in particular the unrecognized code "ZZZ" does. -/
theorem classify_total (iso : String → Option String) :
    get_continent_from_country_code iso none = "Unknown"
    ∧ get_continent_from_country_code iso (some "") = "Unknown"
    ∧ (∀ s : String, special_codes.find? (fun p => p.1 = s) = none → iso s = none →
        get_continent_from_country_code iso (some s) = "Unknown")
    ∧ get_continent_from_country_code (fun _ => none) (some "ZZZ") = "Unknown" := by
  refine ⟨rfl, by simp [get_continent_from_country_code], ?_, rfl⟩
  intro s h1 h2
  by_cases hs : s = ""
  · simp [get_continent_from_country_code, hs]
  · simp [get_continent_from_country_code, hs, h1, h2]

/-- C4: the special-case table is consulted first with exact matching,
before any ISO resolution: whatever the external resolution chain `iso`
would answer, "ROC" and "AIN" map to "Europe", "EOR" and "IOP" to
"Unknown", and the blank string to "Unknown". -/
theorem classify_special_codes (iso : String → Option String) :
    get_continent_from_country_code iso (some "ROC") = "Europe"
    ∧ get_continent_from_country_code iso (some "AIN") = "Europe"
    ∧ get_continent_from_country_code iso (some "EOR") = "Unknown"
    ∧ get_continent_from_country_code iso (some "IOP") = "Unknown"
    ∧ get_continent_from_country_code iso (some "") = "Unknown" := by
  exact ⟨rfl, rfl, rfl, rfl, by simp [get_continent_from_country_code]⟩

/-- C5: medal alias resolution never errors and never empties a table
for lack of a column: with a non-empty medal selection, a table carrying
"medal_type" is filtered to exactly the rows whose value is selected
(possibly zero rows), and a table carrying neither "medal_type" nor
"medal" is returned unfiltered on that dimension. -/
theorem apply_filters_medal_alias :
    (∀ (t : Table) (sel : List String), sel ≠ [] → "medal_type" ∈ t.cols →
        apply_filters t [] [] sel
          = ⟨t.cols, t.rows.filter (fun r => matchesSel (rowVal r "medal_type") sel)⟩)
    ∧ (∀ (t : Table) (sel : List String),
        "medal_type" ∉ t.cols → "medal" ∉ t.cols →
        apply_filters t [] [] sel = t) := by
  constructor
  · intro t sel hne h
    have hres : resolveCol t.cols ["medal_type", "medal"] = some "medal_type" := by
      simp [resolveCol, List.find?_cons, h]
    show filterDim (filterDim (filterDim t [] ["country_code"]) [] ["sport"])
        sel ["medal_type", "medal"] = _
    rw [filterDim_nil, filterDim_nil]
    exact filterDim_resolved t sel _ _ hne hres
  · intro t sel h1 h2
    have hres : resolveCol t.cols ["medal_type", "medal"] = none := by
      simp [resolveCol, List.find?_cons, h1, h2]
    show filterDim (filterDim (filterDim t [] ["country_code"]) [] ["sport"])
        sel ["medal_type", "medal"] = t
    rw [filterDim_nil, filterDim_nil]
    exact filterDim_unresolved t sel _ hres

/-- C7: gender comparison goes through the fixed code-to-label map: after
normalization a per-medal-event cell "W" matches a criteria set exactly
when it selects "Female", "M" exactly when it selects "Male", and any
other code becomes NaN and matches no selection at all. -/
theorem gender_code_normalization (sel : List String) :
    matchesSel (mapGenderCell (some "W")) sel = sel.contains "Female"
    ∧ matchesSel (mapGenderCell (some "M")) sel = sel.contains "Male"
    ∧ ∀ g : String, g ≠ "M" → g ≠ "W" → matchesSel (mapGenderCell (some g)) sel = false := by
  refine ⟨rfl, rfl, ?_⟩
  intro g h1 h2
  simp [mapGenderCell, gender_map, h1, h2, matchesSel]

/-- C8 counterexample: `add_continent_column` does not leave its input
unchanged.  The pandas assignment `df['continent'] = ...` mutates `df`
in place and the function returns that same object, so the post-call
value of the argument is the annotated table, which differs from the
table that was passed in (a "continent" column appeared). -/
theorem add_continent_column_mutates_input :
    add_continent_column (fun _ => none)
        ⟨["country_code"], [[("country_code", some "USA")]]⟩ "country_code"
      ≠ ⟨["country_code"], [[("country_code", some "USA")]]⟩ := by
  decide

/-- C8 amended: `apply_filters` copies and never mutates its input, but
`add_continent_column` mutates its input in place; the mutation is
limited to the "continent" column: row count and order are kept, every
column other than "continent" keeps its values, and the column list
gains "continent" at the end when it was absent. -/
theorem add_continent_column_frame (iso : String → Option String) (df : Table)
    (country_col : String) :
    (add_continent_column iso df country_col).rows.length = df.rows.length
    ∧ (add_continent_column iso df country_col).cols
        = (if df.cols.contains "continent" then df.cols else df.cols ++ ["continent"])
    ∧ ∀ c : String, c ≠ "continent" →
        (add_continent_column iso df country_col).rows.map (fun r => rowVal r c)
          = df.rows.map (fun r => rowVal r c) := by
  refine ⟨?_, ?_, ?_⟩
  · unfold add_continent_column setColumnBy
    split <;> simp
  · unfold add_continent_column setColumnBy
    split <;> rfl
  · intro c hc
    unfold add_continent_column setColumnBy
    split <;>
    · simp only [List.map_map, Function.comp]
      refine List.map_congr_left ?_
      intro r _
      exact rowVal_setCell_ne r "continent" _ c hc

/-- C9 counterexample: the pages skip continent filtering entirely on a
table with no "continent" column: with the real continent "Europe"
selected and "Unknown" not selected, a one-row table lacking the column
is returned whole, not emptied, so rows are retained even though
"Unknown" is not among the selected continents. -/
theorem continent_filter_unannotated_passthrough :
    filterDim ⟨["sport"], [[("sport", some "Judo")]]⟩ ["Europe"] ["continent"]
        = ⟨["sport"], [[("sport", some "Judo")]]⟩
    ∧ (⟨["sport"], [[("sport", some "Judo")]]⟩ : Table).cols.contains "continent" = false
    ∧ (⟨["sport"], [[("sport", some "Judo")]]⟩ : Table).rows ≠ []
    ∧ (["Europe"] : List String).contains "Unknown" = false := by
  refine ⟨by decide, by decide, by decide, by decide⟩

/-- C9 amended: with a non-empty continent selection, a table lacking a
"continent" column passes through the continent filter entirely
unfiltered; the Unknown-only behaviour arises only after annotation:
annotating a table that lacks the country-code column marks every row
"Unknown", so filtering the annotated table retains all rows when
"Unknown" is selected and none otherwise. -/
theorem continent_filter_skip_or_unknown (iso : String → Option String) (t : Table)
    (country_col : String) (sel : List String) (hne : sel ≠ []) :
    ("continent" ∉ t.cols → filterDim t sel ["continent"] = t)
    ∧ (country_col ∉ t.cols →
        (filterDim (add_continent_column iso t country_col) sel ["continent"]).rows
          = if sel.contains "Unknown" then (add_continent_column iso t country_col).rows
            else []) := by
  constructor
  · intro h
    apply filterDim_unresolved
    simp [resolveCol, List.find?_cons, h]
  · intro h
    have hA : add_continent_column iso t country_col
        = setColumnBy t "continent" (fun _ => some "Unknown") := by
      unfold add_continent_column
      rw [if_neg (by simpa using h)]
    rw [hA]
    have hcA : "continent" ∈ (setColumnBy t "continent" (fun _ => some "Unknown")).cols := by
      unfold setColumnBy
      split
      · rename_i hmem
        simpa using hmem
      · simp
    have hres : resolveCol (setColumnBy t "continent" (fun _ => some "Unknown")).cols
        ["continent"] = some "continent" := by
      simp [resolveCol, List.find?_cons, hcA]
    rw [filterDim_resolved _ sel _ _ hne hres]
    show (setColumnBy t "continent" (fun _ => some "Unknown")).rows.filter _ = _
    cases hb : sel.contains "Unknown" with
    | false =>
      have hbm : "Unknown" ∉ sel := by simpa using hb
      rw [if_neg (by simp)]
      apply List.filter_eq_nil_iff.mpr
      intro r hr
      simp only [setColumnBy, List.mem_map] at hr
      obtain ⟨r0, _, rfl⟩ := hr
      simp [matchesSel, rowVal_setCell_same, hbm]
    | true =>
      have hbm : "Unknown" ∈ sel := by simpa using hb
      rw [if_pos rfl]
      apply List.filter_eq_self.mpr
      intro r hr
      simp only [setColumnBy, List.mem_map] at hr
      obtain ⟨r0, _, rfl⟩ := hr
      simp [matchesSel, rowVal_setCell_same, hbm]

/-- C9 amended, witnessed at a concrete input: a one-row table with no
country-code column, annotated and then filtered with continents set to
exactly "Unknown", keeps its row. -/
theorem continent_filter_skip_or_unknown_witness :
    (filterDim (add_continent_column (fun _ => none)
        ⟨["sport"], [[("sport", some "Judo")]]⟩ "country_code") ["Unknown"] ["continent"]).rows
      = (add_continent_column (fun _ => none)
        ⟨["sport"], [[("sport", some "Judo")]]⟩ "country_code").rows := by
  have h := (continent_filter_skip_or_unknown (fun _ => none)
      ⟨["sport"], [[("sport", some "Judo")]]⟩ "country_code" ["Unknown"] (by decide)).2 (by decide)
  simpa using h

end Olympics
